import Mathlib

/-!
Verification of the CyberChef API MCP server
(`cyberchef_api_mcp_server/server.py`): a shallow embedding of the
recipe encoder, the transport client, the response decoder and the
three tool orchestrators, together with theorems about their
behaviour.

Python JSON values are modelled by the inductive `Json`; Python dicts
by association lists (`List (String × Json)`) with first-match lookup
and in-place update, which agrees with dict semantics as long as keys
are unique (which JSON parsing guarantees).  A Python function that
can raise an uncaught exception is modelled as returning
`Except String α`: `Except.error` marks the raised exception.
-/

/-- JSON values as produced by Python's `json` module: `None`, booleans,
integers, strings, arrays and objects (insertion-ordered dicts). -/
inductive Json where
  | null : Json
  | bool : Bool → Json
  | num : Int → Json
  | str : String → Json
  | arr : List Json → Json
  | obj : List (String × Json) → Json
  deriving Inhabited

/-- First-match lookup in an association list: `d.get(k)` on a Python
dict (returning `None` as `Option.none`). -/
def lookupField : List (String × Json) → String → Option Json
  | [], _ => none
  | (k', v') :: rest, k => if k' = k then some v' else lookupField rest k

/-- `d[k] = v` on a Python dict: replace the value at an existing key
in place (keeping its position), append the pair otherwise. -/
def setField : List (String × Json) → String → Json → List (String × Json)
  | [], k, v => [(k, v)]
  | (k', v') :: rest, k, v =>
    if k' = k then (k, v) :: rest else (k', v') :: setField rest k v

/-- `CyberChefRecipeOperation` pydantic model: an operation name with an
optional argument list (`args: Optional[list] = None`). -/
structure CyberChefRecipeOperation where
  op : String
  args : Option (List Json)

/-- Python truthiness test `not op.args or len(op.args) == 0`: the
argument list is absent (`None`) or empty. -/
def argsEmptyB (o : CyberChefRecipeOperation) : Bool :=
  match o.args with
  | none => true
  | some l => l.isEmpty

/-- `isinstance(x, (dict, list))` on a JSON value. -/
def isDictOrList : Json → Bool
  | Json.obj _ => true
  | Json.arr _ => true
  | _ => false

/-- The body of the encoder's conversion loop: build `{"op": ...}` and
add an `args` field when the argument list is present and non-empty.
The single-simple-argument test of the source is kept, with both of
its branches, exactly as written. -/
def encodeOpObj : CyberChefRecipeOperation → Json
  | ⟨name, some args⟩ =>
    if args.length > 0 then
      if args.length = 1 && !(isDictOrList args.headI) then
        Json.obj [("op", Json.str name), ("args", Json.arr args)]
      else
        Json.obj [("op", Json.str name), ("args", Json.arr args)]
    else Json.obj [("op", Json.str name)]
  | ⟨name, none⟩ => Json.obj [("op", Json.str name)]

/-- `convert_recipe_to_api_format`: the recipe encoder.  Bare operation
names when every operation lacks arguments, otherwise one object per
operation via `encodeOpObj`. -/
def convert_recipe_to_api_format (recipe : List CyberChefRecipeOperation) : List Json :=
  if recipe.isEmpty then []
  else if recipe.all argsEmptyB then
    recipe.map (fun o => Json.str o.op)
  else
    recipe.map encodeOpObj

/-- The object encoding with the redundant single-simple-argument
branch removed, following the spec's description of a single fixed
positional encoding (for the refinement comparison). -/
def encodeOpObjSingle : CyberChefRecipeOperation → Json
  | ⟨name, some args⟩ =>
    if args.length > 0 then
      Json.obj [("op", Json.str name), ("args", Json.arr args)]
    else Json.obj [("op", Json.str name)]
  | ⟨name, none⟩ => Json.obj [("op", Json.str name)]

/-- The encoder with the redundant single-simple-argument branch
removed (for the refinement comparison). -/
def convert_recipe_single_encoding (recipe : List CyberChefRecipeOperation) : List Json :=
  if recipe.isEmpty then []
  else if recipe.all argsEmptyB then
    recipe.map (fun o => Json.str o.op)
  else
    recipe.map encodeOpObjSingle

/-- `isinstance(x, list)` on a JSON value. -/
def isArrB : Json → Bool
  | Json.arr _ => true
  | _ => false

/-- `isinstance(x, dict)` on a JSON value. -/
def isObjB : Json → Bool
  | Json.obj _ => true
  | _ => false

/-! ## Transport client (`create_api_request`) -/

mutual

/-- Python `repr` of a JSON value (as used by `str` on containers). -/
def pyRepr : Json → String
  | Json.null => "None"
  | Json.bool b => if b then "True" else "False"
  | Json.num n => toString n
  | Json.str s => "'" ++ s ++ "'"
  | Json.arr xs => "[" ++ pyReprList xs ++ "]"
  | Json.obj fs => "\x7b" ++ pyReprFields fs ++ "\x7d"

/-- Comma-separated `repr`s of the elements of a list. -/
def pyReprList : List Json → String
  | [] => ""
  | [x] => pyRepr x
  | x :: y :: rest => pyRepr x ++ ", " ++ pyReprList (y :: rest)

/-- Comma-separated `'key': repr(value)` renderings of a dict's items. -/
def pyReprFields : List (String × Json) → String
  | [] => ""
  | [(k, v)] => "'" ++ k ++ "': " ++ pyRepr v
  | (k, v) :: p :: rest => "'" ++ k ++ "': " ++ pyRepr v ++ ", " ++ pyReprFields (p :: rest)

end

/-- Python `str` of a JSON value, as interpolated by an f-string. -/
def pyStr : Json → String
  | Json.str s => s
  | j => pyRepr j

/-- The Error Result shape: `{"error": msg}`. -/
def errorResult (msg : String) : Json :=
  Json.obj [("error", Json.str msg)]

/-- The base URL of the remote engine.  `CYBERCHEF_API_URL` is read once
at startup; this is its documented default when the variable is absent. -/
def cyberchef_api_url : String := "http://localhost:3000/"

/-- The outcome of the single `httpx.post` exchange, supplied by the
environment:
* `response status excStr body`: an HTTP response was received with the
  given status code; `excStr` is `str(...)` of the `HTTPStatusError`
  httpx would raise for it, and `body` is the outcome of parsing the
  response body as JSON (`none`: the body is not valid JSON, so
  `response.json()` raises).
* `requestError excStr`: `httpx.post` raised an `httpx.RequestError`
  (connection refused, timeout, DNS failure, ...) with message `excStr`. -/
inductive HttpOutcome where
  | response (status : Nat) (excStr : String) (body : Option Json)
  | requestError (excStr : String)

/-- `Response.is_success` in httpx: `raise_for_status` raises exactly
when the status is outside 200–299. -/
def is2xxB (status : Nat) : Bool :=
  decide (200 ≤ status) && decide (status < 300)

/-- `create_api_request`: POST `request_data` to `endpoint` and return
the parsed response.  A 2xx response returns the parsed body verbatim;
an `HTTPStatusError` is converted to an Error Result built from the
response body's `message` field when one parses out, else from
`str(http_exc)`; a `RequestError` is converted to an Error Result.
A 2xx response whose body does not parse as JSON makes
`response.json()` raise an uncaught `json.JSONDecodeError`, modelled
as `Except.error`. -/
def create_api_request (endpoint : String) (_request_data : Json)
    (env : HttpOutcome) : Except String Json :=
  let api_url := cyberchef_api_url ++ endpoint
  match env with
  | HttpOutcome.response status excStr body =>
    if is2xxB status then
      match body with
      | some j => Except.ok j
      | none => Except.error "json.decoder.JSONDecodeError"
    else
      match body with
      | some (Json.obj fields) =>
        match lookupField fields "message" with
        | some m =>
          Except.ok (errorResult ("HTTP " ++ toString status ++ ": " ++ pyStr m))
        | none =>
          Except.ok (errorResult ("HTTP " ++ toString status ++ ": " ++ excStr))
      | _ =>
        Except.ok (errorResult ("HTTP " ++ toString status ++ ": " ++ excStr))
  | HttpOutcome.requestError excStr =>
    Except.ok (errorResult
      ("Exception raised during HTTP POST request to " ++ api_url ++ " - " ++ excStr))

/-! ## Response decoder -/

/-- Whether a byte is a UTF-8 continuation byte (`10xxxxxx`). -/
def isCont (b : Nat) : Bool := 0x80 ≤ b && b < 0xC0

/-- Strict UTF-8 decoding of a byte sequence, as performed by Python's
`bytes.decode()` with the default codec: rejects stray or missing
continuation bytes, overlong encodings, surrogate code points and code
points above `0x10FFFF`. -/
def utf8DecodeAux : List Nat → Option (List Char)
  | [] => some []
  | b0 :: rest =>
    if b0 < 0x80 then
      (utf8DecodeAux rest).map (fun cs => Char.ofNat b0 :: cs)
    else if b0 < 0xC2 then none
    else if b0 < 0xE0 then
      match rest with
      | b1 :: rest1 =>
        if isCont b1 then
          (utf8DecodeAux rest1).map
            (fun cs => Char.ofNat ((b0 - 0xC0) * 0x40 + (b1 - 0x80)) :: cs)
        else none
      | [] => none
    else if b0 < 0xF0 then
      match rest with
      | b1 :: b2 :: rest2 =>
        if isCont b1 && isCont b2 then
          let c := (b0 - 0xE0) * 0x1000 + (b1 - 0x80) * 0x40 + (b2 - 0x80)
          if c < 0x800 || (0xD800 ≤ c && c ≤ 0xDFFF) then none
          else (utf8DecodeAux rest2).map (fun cs => Char.ofNat c :: cs)
        else none
      | _ => none
    else if b0 < 0xF5 then
      match rest with
      | b1 :: b2 :: b3 :: rest3 =>
        if isCont b1 && isCont b2 && isCont b3 then
          let c := (b0 - 0xF0) * 0x40000 + (b1 - 0x80) * 0x1000 +
                   (b2 - 0x80) * 0x40 + (b3 - 0x80)
          if c < 0x10000 || 0x10FFFF < c then none
          else (utf8DecodeAux rest3).map (fun cs => Char.ofNat c :: cs)
        else none
      | _ => none
    else none

/-- `bytes(bs).decode()` on a list of byte values. -/
def utf8Decode (bs : List Nat) : Option String :=
  (utf8DecodeAux bs).map List.asString

/-- One element of the argument of `bytes(...)`: Python accepts an
`int` in `[0, 256)` (a `bool` counts as `0`/`1`); anything else raises
`TypeError`/`ValueError`. -/
def elemToByte : Json → Option Nat
  | Json.num n => if 0 ≤ n && n < 256 then some n.toNat else none
  | Json.bool b => some (if b then 1 else 0)
  | _ => none

/-- `bytes(v)` on a JSON value: a list of byte values yields those
bytes; an integer `n ≥ 0` yields `n` zero bytes (and a `bool`, being an
`int` in Python, `0` or `1` zero bytes); everything else raises
`TypeError`/`ValueError`, modelled as `none`. -/
def jsonToBytes : Json → Option (List Nat)
  | Json.arr xs => xs.mapM elemToByte
  | Json.num n => if 0 ≤ n then some (List.replicate n.toNat 0) else none
  | Json.bool b => some (List.replicate (if b then 1 else 0) 0)
  | _ => none

/-- `bytes(v).decode()` where every raised `ValueError`/`TypeError`
(including `UnicodeDecodeError`) is reported as `none`. -/
def tryDecodeBytes (v : Json) : Option String :=
  (jsonToBytes v).bind utf8Decode

/-- The test `data_type is not None and data_type == "byteArray"` on
the result of `response_data.get("type")`. -/
def isByteArrayTag : Option Json → Bool
  | some (Json.str s) => s = "byteArray"
  | _ => false

/-- The response-decoder step of `bake_recipe`, acting on the fields of
one result mapping: a `byteArray`-tagged result has its `value` decoded
to text and its `type` rewritten to `"string"`; a failing decode
(`ValueError`/`TypeError`, caught) leaves the mapping unchanged.
`response_data["value"]` on a mapping without a `value` key raises an
uncaught `KeyError`, modelled as `Except.error`. -/
def bake_decode (fields : List (String × Json)) :
    Except String (List (String × Json)) :=
  if isByteArrayTag (lookupField fields "type") then
    match lookupField fields "value" with
    | none => Except.error "KeyError: value"
    | some v =>
      match tryDecodeBytes v with
      | some decoded =>
        Except.ok (setField (setField fields "value" (Json.str decoded))
          "type" (Json.str "string"))
      | none => Except.ok fields
  else Except.ok fields

/-- One iteration of the decode loop of `batch_bake_recipe`:
`response.get("type")` requires the element to be a mapping — on any
other JSON value `.get` raises an uncaught `AttributeError`. -/
def batchElemDecode : Json → Except String Json
  | Json.obj fields => (bake_decode fields).map Json.obj
  | _ => Except.error "AttributeError: get"

/-- The decode loop of `batch_bake_recipe` over the elements of a
list-shaped response, stopping at the first uncaught exception. -/
def decodeList : List Json → Except String (List Json)
  | [] => Except.ok []
  | x :: xs =>
    match batchElemDecode x with
    | Except.error e => Except.error e
    | Except.ok y =>
      match decodeList xs with
      | Except.error e => Except.error e
      | Except.ok ys => Except.ok (y :: ys)

/-- The batch decode pass of `batch_bake_recipe`: the per-element loop
runs only when `isinstance(response_data, list)`; any other response is
returned unchanged. -/
def batchDecode : Json → Except String Json
  | Json.arr items => (decodeList items).map Json.arr
  | other => Except.ok other

/-! ## Orchestrators -/

/-- `bake_recipe`: encode the recipe, POST `{input, recipe}` to the
`bake` endpoint, then decode a `byteArray`-typed result.
`response_data.get("type")` on a non-mapping response raises an
uncaught `AttributeError`. -/
def bake_recipe (input_data : String) (recipe : List CyberChefRecipeOperation)
    (env : HttpOutcome) : Except String Json :=
  let api_recipe := convert_recipe_to_api_format recipe
  let request_data := Json.obj
    [("input", Json.str input_data), ("recipe", Json.arr api_recipe)]
  match create_api_request "bake" request_data env with
  | Except.error e => Except.error e
  | Except.ok responseData =>
    match responseData with
    | Json.obj fields => (bake_decode fields).map Json.obj
    | _ => Except.error "AttributeError: get"

/-- `batch_bake_recipe`: encode the recipe once, POST
`{input: batch, recipe}` to the `batch/bake` endpoint, then run the
batch decode pass on a list-shaped response. -/
def batch_bake_recipe (batch_input_data : List String)
    (recipe : List CyberChefRecipeOperation) (env : HttpOutcome) :
    Except String Json :=
  let api_recipe := convert_recipe_to_api_format recipe
  let request_data := Json.obj
    [("input", Json.arr (batch_input_data.map Json.str)),
     ("recipe", Json.arr api_recipe)]
  match create_api_request "batch/bake" request_data env with
  | Except.error e => Except.error e
  | Except.ok responseData => batchDecode responseData

/-- `perform_magic_operation`: build
`{input, args: {depth, intensive_mode, extensive_language_support,
crib}}`, POST it to the `magic` endpoint and return the transport
result unchanged (no decode step).  The source's defaults are
`depth=3`, `intensive_mode=False`, `extensive_language_support=False`,
`crib_str=""`. -/
def perform_magic_operation (input_data : String) (depth : Int)
    (intensive_mode : Bool) (extensive_language_support : Bool)
    (crib_str : String) (env : HttpOutcome) : Except String Json :=
  let request_data := Json.obj
    [("input", Json.str input_data),
     ("args", Json.obj
       [("depth", Json.num depth),
        ("intensive_mode", Json.bool intensive_mode),
        ("extensive_language_support", Json.bool extensive_language_support),
        ("crib", Json.str crib_str)])]
  create_api_request "magic" request_data env

/-! ## Helper lemmas -/

theorem lookupField_setField_self (m : List (String × Json)) (k : String) (v : Json) :
    lookupField (setField m k v) k = some v := by
  induction m with
  | nil => simp [setField, lookupField]
  | cons p rest ih =>
    by_cases h : p.1 = k
    · simp [setField, h, lookupField]
    · simp [setField, h, lookupField, ih]

theorem lookupField_setField_ne (m : List (String × Json)) (k k' : String) (v : Json)
    (h : k ≠ k') : lookupField (setField m k' v) k = lookupField m k := by
  have hk : ¬ k' = k := fun he => h he.symm
  induction m with
  | nil => simp [setField, lookupField, hk]
  | cons p rest ih =>
    by_cases hp : p.1 = k'
    · simp [setField, hp, lookupField, hk]
    · simp [setField, hp, lookupField, ih]

theorem bake_decode_of_not_tag (fields : List (String × Json))
    (h : isByteArrayTag (lookupField fields "type") = false) :
    bake_decode fields = Except.ok fields := by
  unfold bake_decode
  rw [h]
  simp

theorem bake_decode_total (fields : List (String × Json))
    (h : isByteArrayTag (lookupField fields "type") = true →
      ∃ v, lookupField fields "value" = some v) :
    ∃ out, bake_decode fields = Except.ok out := by
  by_cases hb : isByteArrayTag (lookupField fields "type") = true
  · obtain ⟨v, hv⟩ := h hb
    unfold bake_decode
    rw [hb, hv]
    simp only [if_true]
    cases tryDecodeBytes v <;> exact ⟨_, rfl⟩
  · exact ⟨fields, bake_decode_of_not_tag fields (Bool.not_eq_true _ ▸ hb)⟩

/-- The fields of an object-shaped JSON value. -/
def fieldsOf : Json → List (String × Json)
  | Json.obj fs => fs
  | _ => []

/-- The fields of a successfully decoded `byteArray` result: `value`
replaced by the decoded text, then `type` replaced by `"string"`. -/
def decodedFields (fields : List (String × Json)) (s : String) :
    List (String × Json) :=
  setField (setField fields "value" (Json.str s)) "type" (Json.str "string")

theorem bake_decode_tag_some (fields : List (String × Json)) (v : Json)
    (hb : isByteArrayTag (lookupField fields "type") = true)
    (hv : lookupField fields "value" = some v) :
    bake_decode fields =
      match tryDecodeBytes v with
      | some decoded => Except.ok (decodedFields fields decoded)
      | none => Except.ok fields := by
  unfold bake_decode decodedFields
  rw [hb, hv]
  simp

theorem bake_decode_tag_no_value (fields : List (String × Json))
    (hb : isByteArrayTag (lookupField fields "type") = true)
    (hv : lookupField fields "value" = none) :
    bake_decode fields = Except.error "KeyError: value" := by
  unfold bake_decode
  rw [hb, hv]
  simp

theorem encodeOpObj_isObj (o : CyberChefRecipeOperation) :
    isObjB (encodeOpObj o) = true := by
  obtain ⟨name, _ | args⟩ := o
  · rfl
  · simp only [encodeOpObj]
    split
    · split <;> rfl
    · rfl

theorem convert_recipe_mixed (r : List CyberChefRecipeOperation)
    (h : ∃ o ∈ r, argsEmptyB o = false) :
    convert_recipe_to_api_format r = r.map encodeOpObj := by
  obtain ⟨o, ho, hfalse⟩ := h
  have hne : r.isEmpty = false := by
    cases r with
    | nil => exact absurd ho (List.not_mem_nil o)
    | cons a rest => rfl
  have hall : r.all argsEmptyB = false := by
    rcases Bool.eq_false_or_eq_true (r.all argsEmptyB) with ht | hf
    · exact absurd (List.all_eq_true.mp ht o ho)
        (by rw [hfalse]; exact Bool.false_ne_true)
    · exact hf
  unfold convert_recipe_to_api_format
  rw [hne, hall]
  simp

/-- C2: a recipe in which every operation lacks arguments is encoded as
the ordered list of bare operation-name strings; the empty recipe is
encoded as the empty list; and the bare-string shape is chosen only in
this all-argument-free case (otherwise every encoded element is an
object). -/
theorem convert_recipe_bare_names :
    ∀ (r : List CyberChefRecipeOperation) (j : Json),
      convert_recipe_to_api_format [] = [] ∧
      ((∀ o ∈ r, argsEmptyB o = true) →
        convert_recipe_to_api_format r = r.map (fun o => Json.str o.op)) ∧
      ((¬ ∀ o ∈ r, argsEmptyB o = true) → j ∈ convert_recipe_to_api_format r →
        isObjB j = true) := by
  intro r j
  refine ⟨rfl, ?_, ?_⟩
  · intro h
    unfold convert_recipe_to_api_format
    cases r with
    | nil => rfl
    | cons a rest =>
      rw [if_neg (by simp), if_pos (List.all_eq_true.mpr h)]
  · intro h hj
    have hex : ∃ o ∈ r, argsEmptyB o = false := by
      by_contra hne
      apply h
      intro o ho
      rcases Bool.eq_false_or_eq_true (argsEmptyB o) with ht | hf
      · exact ht
      · exact (hne ⟨o, ho, hf⟩).elim
    rw [convert_recipe_mixed r hex] at hj
    obtain ⟨o, _, rfl⟩ := List.mem_map.mp hj
    exact encodeOpObj_isObj o

/-- C2 witness: a one-operation argument-free recipe encodes to the bare
name, and an element produced in mixed mode is object-shaped. -/
theorem convert_recipe_bare_names_witness :
    convert_recipe_to_api_format [⟨"To Upper case", none⟩] =
      ([⟨"To Upper case", none⟩] : List CyberChefRecipeOperation).map
        (fun o => Json.str o.op) ∧
    isObjB (Json.obj [("op", Json.str "A")]) = true :=
  ⟨(convert_recipe_bare_names [⟨"To Upper case", none⟩] Json.null).2.1 (by decide),
   (convert_recipe_bare_names [⟨"A", none⟩, ⟨"B", some [Json.str "x"]⟩]
      (Json.obj [("op", Json.str "A")])).2.2 (by decide)
      (List.mem_cons_self _ _)⟩

/-- C3: as soon as one operation carries a non-empty argument list, the
whole recipe is encoded in object mode: output is the ordered map of
`encodeOpObj`, every element is an object whose `op` field is the
operation name, an argument-free operation carries no `args` field, and
an operation with non-empty arguments carries `args` equal to the
original argument list verbatim. -/
theorem convert_recipe_object_shape :
    ∀ (r : List CyberChefRecipeOperation) (o : CyberChefRecipeOperation)
      (args : List Json),
      (∃ o' ∈ r, argsEmptyB o' = false) →
      convert_recipe_to_api_format r = r.map encodeOpObj ∧
      isObjB (encodeOpObj o) = true ∧
      lookupField (fieldsOf (encodeOpObj o)) "op" = some (Json.str o.op) ∧
      (argsEmptyB o = true → lookupField (fieldsOf (encodeOpObj o)) "args" = none) ∧
      (o.args = some args → args ≠ [] →
        lookupField (fieldsOf (encodeOpObj o)) "args" = some (Json.arr args)) := by
  intro r o args hex
  refine ⟨convert_recipe_mixed r hex, encodeOpObj_isObj o, ?_, ?_, ?_⟩
  · obtain ⟨name, _ | l⟩ := o
    · rfl
    · simp only [encodeOpObj]
      split
      · split <;> rfl
      · rfl
  · intro hempty
    obtain ⟨name, _ | l⟩ := o
    · rfl
    · cases l with
      | nil => rfl
      | cons a rest => exact absurd hempty (by simp [argsEmptyB])
  · intro ho hne
    obtain ⟨name, _ | l⟩ := o
    · cases ho
    · have hl : l = args := by injection ho
      subst hl
      cases hargs : l with
      | nil => exact absurd hargs hne
      | cons a rest =>
        simp only [encodeOpObj]
        rw [if_pos (by simp [hargs])]
        split <;> rfl

/-- C3 witness: a two-operation recipe with one argument-bearing
operation, instantiated at the argument-bearing operation. -/
theorem convert_recipe_object_shape_witness :
    convert_recipe_to_api_format [⟨"A", none⟩, ⟨"B", some [Json.str "x"]⟩] =
      [⟨"A", none⟩, ⟨"B", some [Json.str "x"]⟩].map encodeOpObj ∧
    isObjB (encodeOpObj ⟨"B", some [Json.str "x"]⟩) = true ∧
    lookupField (fieldsOf (encodeOpObj ⟨"B", some [Json.str "x"]⟩)) "op" =
      some (Json.str "B") ∧
    (argsEmptyB ⟨"B", some [Json.str "x"]⟩ = true →
      lookupField (fieldsOf (encodeOpObj ⟨"B", some [Json.str "x"]⟩)) "args" = none) ∧
    ((⟨"B", some [Json.str "x"]⟩ : CyberChefRecipeOperation).args = some [Json.str "x"] →
      [Json.str "x"] ≠ [] →
      lookupField (fieldsOf (encodeOpObj ⟨"B", some [Json.str "x"]⟩)) "args" =
        some (Json.arr [Json.str "x"])) :=
  convert_recipe_object_shape [⟨"A", none⟩, ⟨"B", some [Json.str "x"]⟩]
    ⟨"B", some [Json.str "x"]⟩ [Json.str "x"]
    ⟨⟨"B", some [Json.str "x"]⟩, List.mem_cons_of_mem _ (List.mem_cons_self _ _), rfl⟩

/-- Whether a JSON value has the Error Result shape: an object whose
`error` field holds a string message. -/
def hasErrorField : Json → Bool
  | Json.obj fs =>
    match lookupField fs "error" with
    | some (Json.str _) => true
    | _ => false
  | _ => false

/-- A transport outcome that returned (did not raise) an Error Result. -/
def okErrorShaped : Except String Json → Bool
  | Except.ok j => hasErrorField j
  | Except.error _ => false

/-- C1 counterexample: a 2xx response whose body does not parse as JSON
makes `response.json()` raise an uncaught `json.JSONDecodeError`, so
`create_api_request` does raise to its caller on this environment
outcome — "never raises" does not hold unconditionally. -/
theorem create_api_request_raises_on_unparseable_success :
    create_api_request "bake" (Json.obj []) (HttpOutcome.response 200 "exc" none) =
      Except.error "json.decoder.JSONDecodeError" := rfl

/-- C1 (amended): for every endpoint and JSON-serializable body, every
HTTP-status failure and every network failure is converted to a
returned Error Result (a mapping with an `error` field), and a 2xx
response whose body parses as JSON is returned verbatim; only a 2xx
response with an unparseable body raises (an uncaught
`json.JSONDecodeError`). -/
theorem create_api_request_error_as_data :
    ∀ (endpoint : String) (body : Json) (status : Nat) (excStr : String)
      (rbody : Option Json) (j : Json),
      (is2xxB status = true →
        create_api_request endpoint body
          (HttpOutcome.response status excStr (some j)) = Except.ok j) ∧
      (is2xxB status = false →
        okErrorShaped (create_api_request endpoint body
          (HttpOutcome.response status excStr rbody)) = true) ∧
      okErrorShaped (create_api_request endpoint body
        (HttpOutcome.requestError excStr)) = true := by
  intro endpoint body status excStr rbody j
  refine ⟨?_, ?_, rfl⟩
  · intro h
    simp only [create_api_request]
    rw [h]
    rfl
  · intro h
    simp only [create_api_request]
    rw [h]
    cases rbody with
    | none => rfl
    | some rj =>
      cases rj with
      | obj fields =>
        cases hm : lookupField fields "message" with
        | none =>
          show okErrorShaped (match lookupField fields "message" with
            | some m => Except.ok (errorResult
                ("HTTP " ++ toString status ++ ": " ++ pyStr m))
            | none => Except.ok (errorResult
                ("HTTP " ++ toString status ++ ": " ++ excStr))) = true
          rw [hm]
          rfl
        | some m =>
          show okErrorShaped (match lookupField fields "message" with
            | some m => Except.ok (errorResult
                ("HTTP " ++ toString status ++ ": " ++ pyStr m))
            | none => Except.ok (errorResult
                ("HTTP " ++ toString status ++ ": " ++ excStr))) = true
          rw [hm]
          rfl
      | null => rfl
      | bool b => rfl
      | num n => rfl
      | str s => rfl
      | arr xs => rfl

/-- C1 witness: a 2xx body returned verbatim, an HTTP 500 converted to
an Error Result, and a network failure converted to an Error Result. -/
theorem create_api_request_error_as_data_witness :
    create_api_request "bake" (Json.obj [])
      (HttpOutcome.response 201 "e" (some (Json.str "x"))) =
      Except.ok (Json.str "x") ∧
    okErrorShaped (create_api_request "bake" (Json.obj [])
      (HttpOutcome.response 500 "e"
        (some (Json.obj [("message", Json.str "boom")])))) = true ∧
    okErrorShaped (create_api_request "bake" (Json.obj [])
      (HttpOutcome.requestError "Connection refused")) = true :=
  ⟨(create_api_request_error_as_data "bake" (Json.obj []) 201 "e"
      (some (Json.str "x")) (Json.str "x")).1 (by decide),
   (create_api_request_error_as_data "bake" (Json.obj []) 500 "e"
      (some (Json.obj [("message", Json.str "boom")])) Json.null).2.1 (by decide),
   (create_api_request_error_as_data "bake" (Json.obj []) 500
      "Connection refused" none Json.null).2.2⟩

/-- C7: a non-2xx HTTP response is converted — without raising and
without retrying (the client performs exactly one exchange) — to an
Error Result whose message carries the status code; when the response
body parses as JSON with a `message` field, that message is included
(HTTP 500 with body `{"message": "boom"}` yields
`{"error": "HTTP 500: boom"}`), and when the body fails to parse the
message falls back to the generic `str(http_exc)` description. -/
theorem create_api_request_http_error_message :
    ∀ (endpoint : String) (body : Json) (status : Nat) (excStr : String)
      (rbody : Option Json) (fields : List (String × Json)) (m : String),
      is2xxB status = false →
      (rbody = some (Json.obj fields) →
        lookupField fields "message" = some (Json.str m) →
        create_api_request endpoint body (HttpOutcome.response status excStr rbody) =
          Except.ok (errorResult ("HTTP " ++ toString status ++ ": " ++ m))) ∧
      (rbody = none →
        create_api_request endpoint body (HttpOutcome.response status excStr rbody) =
          Except.ok (errorResult ("HTTP " ++ toString status ++ ": " ++ excStr))) := by
  intro endpoint body status excStr rbody fields m h
  constructor
  · intro hb hm
    subst hb
    simp only [create_api_request]
    rw [h]
    show (match lookupField fields "message" with
      | some m => Except.ok (errorResult ("HTTP " ++ toString status ++ ": " ++ pyStr m))
      | none => Except.ok (errorResult ("HTTP " ++ toString status ++ ": " ++ excStr))) =
      Except.ok (errorResult ("HTTP " ++ toString status ++ ": " ++ m))
    rw [hm]
    rfl
  · intro hb
    subst hb
    simp only [create_api_request]
    rw [h]
    rfl

/-- C7 witness: an HTTP 500 with body `{"message": "boom"}` yields
`{"error": "HTTP 500: boom"}`, and an HTTP 404 with an unparseable body
falls back to `str(http_exc)`. -/
theorem create_api_request_http_error_message_witness :
    create_api_request "bake" (Json.obj [("input", Json.str "x")])
      (HttpOutcome.response 500 "exc"
        (some (Json.obj [("message", Json.str "boom")]))) =
      Except.ok (errorResult "HTTP 500: boom") ∧
    create_api_request "bake" (Json.obj [("input", Json.str "x")])
      (HttpOutcome.response 404 "Client error 404" none) =
      Except.ok (errorResult "HTTP 404: Client error 404") :=
  ⟨(create_api_request_http_error_message "bake" (Json.obj [("input", Json.str "x")])
      500 "exc" (some (Json.obj [("message", Json.str "boom")]))
      [("message", Json.str "boom")] "boom" (by decide)).1 rfl rfl,
   (create_api_request_http_error_message "bake" (Json.obj [("input", Json.str "x")])
      404 "Client error 404" none [] "" (by decide)).2 rfl⟩

/-- C8: with the source's default arguments, `perform_magic_operation`
sends `{input, args: {depth: 3, intensive_mode: false,
extensive_language_support: false, crib: ""}}` to the `magic` endpoint
and returns the transport result unchanged — in particular a parsed
2xx body comes back verbatim, with no decode step applied. -/
theorem perform_magic_default_body :
    ∀ (input : String) (env : HttpOutcome) (status : Nat) (excStr : String) (j : Json),
      perform_magic_operation input 3 false false "" env =
        create_api_request "magic"
          (Json.obj [("input", Json.str input),
            ("args", Json.obj [("depth", Json.num 3),
              ("intensive_mode", Json.bool false),
              ("extensive_language_support", Json.bool false),
              ("crib", Json.str "")])]) env ∧
      (is2xxB status = true →
        perform_magic_operation input 3 false false ""
          (HttpOutcome.response status excStr (some j)) = Except.ok j) := by
  intro input env status excStr j
  refine ⟨rfl, ?_⟩
  intro h
  simp only [perform_magic_operation, create_api_request]
  rw [h]
  rfl

/-- C8 witness: the default-argument body at a concrete input, and a
`byteArray`-typed magic response passed through undecoded. -/
theorem perform_magic_default_body_witness :
    perform_magic_operation "abc" 3 false false "" (HttpOutcome.requestError "x") =
      create_api_request "magic"
        (Json.obj [("input", Json.str "abc"),
          ("args", Json.obj [("depth", Json.num 3),
            ("intensive_mode", Json.bool false),
            ("extensive_language_support", Json.bool false),
            ("crib", Json.str "")])]) (HttpOutcome.requestError "x") ∧
    perform_magic_operation "abc" 3 false false ""
      (HttpOutcome.response 200 "e"
        (some (Json.obj [("type", Json.str "byteArray"),
          ("value", Json.arr [Json.num 104])]))) =
      Except.ok (Json.obj [("type", Json.str "byteArray"),
        ("value", Json.arr [Json.num 104])]) :=
  ⟨(perform_magic_default_body "abc" (HttpOutcome.requestError "x") 200 "e" Json.null).1,
   (perform_magic_default_body "abc" (HttpOutcome.requestError "x") 200 "e"
      (Json.obj [("type", Json.str "byteArray"),
        ("value", Json.arr [Json.num 104])])).2 (by decide)⟩

/-- C5: the decode step of `bake_recipe` changes a result only when its
`type` tag is the string `"byteArray"`: a mapping with no `type` field
(such as an Error Result) and a mapping with any other `type` value are
returned unchanged, and the decode step is idempotent — running it
twice equals running it once (a decoded result carries `type`
`"string"`, so the second pass is a no-op). -/
theorem bake_decode_idempotent :
    ∀ (fields : List (String × Json)) (t : Json),
      (lookupField fields "type" = none → bake_decode fields = Except.ok fields) ∧
      (lookupField fields "type" = some t → t ≠ Json.str "byteArray" →
        bake_decode fields = Except.ok fields) ∧
      (bake_decode fields).bind bake_decode = bake_decode fields := by
  intro fields t
  refine ⟨?_, ?_, ?_⟩
  · intro h
    exact bake_decode_of_not_tag fields (by rw [h]; rfl)
  · intro h ht
    apply bake_decode_of_not_tag
    rw [h]
    cases t with
    | str s =>
      have hs : ¬ s = "byteArray" := fun he => ht (by rw [he])
      simp [isByteArrayTag, hs]
    | null => rfl
    | bool b => rfl
    | num n => rfl
    | arr xs => rfl
    | obj fs => rfl
  · rcases Bool.eq_false_or_eq_true (isByteArrayTag (lookupField fields "type"))
      with hb | hb
    · cases hv : lookupField fields "value" with
      | none =>
        rw [bake_decode_tag_no_value fields hb hv]
        rfl
      | some v =>
        have h1 := bake_decode_tag_some fields v hb hv
        cases hd : tryDecodeBytes v with
        | none =>
          rw [hd] at h1
          simp only [] at h1
          rw [h1]
          exact h1
        | some s =>
          rw [hd] at h1
          simp only [] at h1
          rw [h1]
          show bake_decode (decodedFields fields s) = Except.ok (decodedFields fields s)
          apply bake_decode_of_not_tag
          unfold decodedFields
          rw [lookupField_setField_self]
          rfl
    · have h1 := bake_decode_of_not_tag fields (Bool.not_eq_true _ ▸ hb)
      rw [h1]
      exact h1

/-- C5 witness: an Error Result and a string-typed result pass through
unchanged, and decoding a concrete `byteArray` result twice equals
decoding it once. -/
theorem bake_decode_idempotent_witness :
    bake_decode [("error", Json.str "boom")] =
      Except.ok [("error", Json.str "boom")] ∧
    bake_decode [("type", Json.str "string"), ("value", Json.str "hi")] =
      Except.ok [("type", Json.str "string"), ("value", Json.str "hi")] ∧
    (bake_decode [("type", Json.str "byteArray"),
        ("value", Json.arr [Json.num 104])]).bind bake_decode =
      bake_decode [("type", Json.str "byteArray"),
        ("value", Json.arr [Json.num 104])] :=
  ⟨(bake_decode_idempotent [("error", Json.str "boom")] Json.null).1 rfl,
   (bake_decode_idempotent [("type", Json.str "string"), ("value", Json.str "hi")]
      (Json.str "string")).2.1 rfl
      (by intro h; injection h with h'; exact absurd h' (by decide)),
   (bake_decode_idempotent [("type", Json.str "byteArray"),
      ("value", Json.arr [Json.num 104])] Json.null).2.2⟩

/-- C4 counterexample: a result mapping whose `type` is `"byteArray"`
but which carries no `value` field makes the decode step raise an
uncaught `KeyError` instead of leaving the mapping unchanged — the
claim's "never fails the overall call" is false for this input. -/
theorem bake_decode_missing_value_raises :
    bake_decode [("type", Json.str "byteArray")] =
      Except.error "KeyError: value" := rfl

/-- C4 (amended): for a result mapping whose `type` is `"byteArray"`
and which has a `value` field, the decode step either succeeds —
replacing `value` with the decoded text and `type` with `"string"`,
leaving every other field unchanged — or, on decode failure of the
present `value`, returns the mapping unchanged; a `byteArray` result
with no `value` field instead raises `KeyError`.  In particular
`{"type": "byteArray", "value": [104,101,108,108,111]}` becomes
`{"type": "string", "value": "hello"}`. -/
theorem bake_decode_byteArray_amended :
    bake_decode [("type", Json.str "byteArray"),
      ("value", Json.arr [Json.num 104, Json.num 101, Json.num 108,
        Json.num 108, Json.num 111])] =
      Except.ok [("type", Json.str "string"), ("value", Json.str "hello")] ∧
    bake_recipe "68656c6c6f" [⟨"From Hex", none⟩]
      (HttpOutcome.response 200 "" (some (Json.obj [("type", Json.str "byteArray"),
        ("value", Json.arr [Json.num 104, Json.num 101, Json.num 108,
          Json.num 108, Json.num 111])]))) =
      Except.ok (Json.obj [("type", Json.str "string"),
        ("value", Json.str "hello")]) ∧
    ∀ (fields : List (String × Json)) (v : Json) (s : String) (k : String),
      lookupField fields "type" = some (Json.str "byteArray") →
      lookupField fields "value" = some v →
      (tryDecodeBytes v = some s →
        bake_decode fields = Except.ok (decodedFields fields s) ∧
        lookupField (decodedFields fields s) "type" = some (Json.str "string") ∧
        lookupField (decodedFields fields s) "value" = some (Json.str s) ∧
        (k ≠ "type" → k ≠ "value" →
          lookupField (decodedFields fields s) k = lookupField fields k)) ∧
      (tryDecodeBytes v = none → bake_decode fields = Except.ok fields) := by
  refine ⟨rfl, rfl, ?_⟩
  intro fields v s k hty hv
  have hb : isByteArrayTag (lookupField fields "type") = true := by rw [hty]; rfl
  have h1 := bake_decode_tag_some fields v hb hv
  constructor
  · intro hd
    rw [hd] at h1
    simp only [] at h1
    refine ⟨h1, ?_, ?_, ?_⟩
    · exact lookupField_setField_self _ _ _
    · unfold decodedFields
      rw [lookupField_setField_ne _ _ _ _ (by decide)]
      exact lookupField_setField_self _ _ _
    · intro hk1 hk2
      unfold decodedFields
      rw [lookupField_setField_ne _ _ _ _ hk1, lookupField_setField_ne _ _ _ _ hk2]
  · intro hd
    rw [hd] at h1
    simpa using h1

/-- C4 witness: the amended theorem applied to a concrete decodable
result mapping with an extra field, checking rewrite and frame. -/
theorem bake_decode_byteArray_amended_witness :
    bake_decode [("type", Json.str "byteArray"),
      ("value", Json.arr [Json.num 104, Json.num 105]), ("x", Json.num 7)] =
      Except.ok (decodedFields [("type", Json.str "byteArray"),
        ("value", Json.arr [Json.num 104, Json.num 105]), ("x", Json.num 7)] "hi") ∧
    lookupField (decodedFields [("type", Json.str "byteArray"),
      ("value", Json.arr [Json.num 104, Json.num 105]), ("x", Json.num 7)] "hi") "x" =
      lookupField [("type", Json.str "byteArray"),
        ("value", Json.arr [Json.num 104, Json.num 105]), ("x", Json.num 7)] "x" :=
  ⟨((bake_decode_byteArray_amended.2.2 [("type", Json.str "byteArray"),
      ("value", Json.arr [Json.num 104, Json.num 105]), ("x", Json.num 7)]
      (Json.arr [Json.num 104, Json.num 105]) "hi" "x" rfl rfl).1 rfl).1,
   (((bake_decode_byteArray_amended.2.2 [("type", Json.str "byteArray"),
      ("value", Json.arr [Json.num 104, Json.num 105]), ("x", Json.num 7)]
      (Json.arr [Json.num 104, Json.num 105]) "hi" "x" rfl rfl).1 rfl).2.2.2
      (by decide) (by decide))⟩

/-- C9: the single-simple-argument test in the encoder is redundant —
both of its branches emit the same positional `args` array, so the
encoder is extensionally equal to the variant with the test removed
(one single fixed encoding). -/
theorem convert_recipe_branch_redundant :
    ∀ r, convert_recipe_to_api_format r = convert_recipe_single_encoding r := by
  have hpt : ∀ o, encodeOpObj o = encodeOpObjSingle o := by
    intro o
    obtain ⟨name, _ | args⟩ := o
    · rfl
    · simp only [encodeOpObj, encodeOpObjSingle, ite_self]
  intro r
  unfold convert_recipe_to_api_format convert_recipe_single_encoding
  rw [funext hpt]

/-- Whether an exception-modelling computation returned normally. -/
def exceptIsOk : Except String Json → Bool
  | Except.ok _ => true
  | Except.error _ => false

theorem decodeList_elementwise :
    ∀ (items out : List Json), decodeList items = Except.ok out →
      out.length = items.length ∧
      ∀ i (hi : i < items.length) (ho : i < out.length),
        batchElemDecode (items.get ⟨i, hi⟩) = Except.ok (out.get ⟨i, ho⟩) := by
  intro items
  induction items with
  | nil =>
    intro out h
    simp only [decodeList] at h
    injection h with h'
    subst h'
    exact ⟨rfl, fun i hi ho => absurd hi (Nat.not_lt_zero i)⟩
  | cons x xs ih =>
    intro out h
    simp only [decodeList] at h
    cases hx : batchElemDecode x with
    | error e => simp [hx] at h
    | ok y =>
      cases hxs : decodeList xs with
      | error e => simp [hx, hxs] at h
      | ok ys =>
        simp only [hx, hxs] at h
        injection h with h'
        subst h'
        obtain ⟨hlen, helem⟩ := ih ys hxs
        refine ⟨by simp [hlen], ?_⟩
        intro i hi ho
        cases i with
        | zero => exact hx
        | succ n =>
          exact helem n (Nat.lt_of_succ_lt_succ hi) (Nat.lt_of_succ_lt_succ ho)

theorem decodeList_total (items : List Json)
    (h : ∀ y ∈ items, isObjB y = true ∧
      (isByteArrayTag (lookupField (fieldsOf y) "type") = true →
        ∃ v, lookupField (fieldsOf y) "value" = some v)) :
    ∃ out, decodeList items = Except.ok out := by
  induction items with
  | nil => exact ⟨[], rfl⟩
  | cons x xs ih =>
    obtain ⟨hobj, hval⟩ := h x (List.mem_cons_self _ _)
    obtain ⟨out, hout⟩ := ih (fun y hy => h y (List.mem_cons_of_mem _ hy))
    cases x with
    | obj fields =>
      obtain ⟨fo, hfo⟩ := bake_decode_total fields hval
      refine ⟨Json.obj fo :: out, ?_⟩
      simp [decodeList, batchElemDecode, hfo, hout, Except.map]
    | null => exact absurd hobj (by simp [isObjB])
    | bool b => exact absurd hobj (by simp [isObjB])
    | num n => exact absurd hobj (by simp [isObjB])
    | str s => exact absurd hobj (by simp [isObjB])
    | arr l => exact absurd hobj (by simp [isObjB])

theorem decodeList_faults (items : List Json) (x : Json) (hmem : x ∈ items)
    (hnotobj : isObjB x = false) : ∃ e, decodeList items = Except.error e := by
  induction items with
  | nil => exact absurd hmem (List.not_mem_nil x)
  | cons a xs ih =>
    rcases List.mem_cons.mp hmem with rfl | hxs
    · have ha : batchElemDecode x = Except.error "AttributeError: get" := by
        cases x with
        | obj fields => exact absurd hnotobj (by simp [isObjB])
        | null => rfl
        | bool b => rfl
        | num n => rfl
        | str s => rfl
        | arr l => rfl
      exact ⟨"AttributeError: get", by simp [decodeList, ha]⟩
    · cases ha : batchElemDecode a with
      | error e => exact ⟨e, by simp [decodeList, ha]⟩
      | ok y =>
        obtain ⟨e, he⟩ := ih hxs
        exact ⟨e, by simp [decodeList, ha, he]⟩

/-- C6: the batch decode pass treats each element of a list-shaped
response independently — every output element is exactly the decode of
the input element at the same index, so a tolerated decode failure on
one element never changes a sibling; a non-list response is returned
unchanged; and in the concrete mixed batch the valid `byteArray`
element is rewritten to a string result while the malformed sibling is
left untouched, with no fault. -/
theorem batch_decode_elementwise :
    ∀ (j : Json) (items out : List Json) (i : Nat),
      (isArrB j = false → batchDecode j = Except.ok j) ∧
      (decodeList items = Except.ok out → out.length = items.length) ∧
      (∀ (_hd2 : decodeList items = Except.ok out) (hi : i < items.length)
        (ho : i < out.length),
        batchElemDecode (items.get ⟨i, hi⟩) = Except.ok (out.get ⟨i, ho⟩)) ∧
      batchDecode (Json.arr
        [Json.obj [("type", Json.str "byteArray"),
           ("value", Json.arr [Json.num 104, Json.num 105])],
         Json.obj [("type", Json.str "byteArray"), ("value", Json.str "nope")]]) =
        Except.ok (Json.arr
          [Json.obj [("type", Json.str "string"), ("value", Json.str "hi")],
           Json.obj [("type", Json.str "byteArray"), ("value", Json.str "nope")]]) := by
  intro j items out i
  refine ⟨?_, ?_, ?_, rfl⟩
  · intro h
    cases j with
    | arr l => exact absurd h (by simp [isArrB])
    | null => rfl
    | bool b => rfl
    | num n => rfl
    | str s => rfl
    | obj fs => rfl
  · intro h
    exact (decodeList_elementwise items out h).1
  · intro hd2 hi ho
    exact (decodeList_elementwise items out hd2).2 i hi ho

/-- C6 witness: a non-list (Error Result) response passes through, and
in a concrete two-element batch each output element is the independent
decode of the input element at the same index. -/
theorem batch_decode_elementwise_witness :
    batchDecode (Json.obj [("error", Json.str "boom")]) =
      Except.ok (Json.obj [("error", Json.str "boom")]) ∧
    ([Json.obj [("type", Json.str "string")],
        Json.obj [("type", Json.str "byteArray"), ("value", Json.str "bad")]].length =
      ([Json.obj [("type", Json.str "string")],
        Json.obj [("type", Json.str "byteArray"), ("value", Json.str "bad")]] :
          List Json).length) ∧
    batchElemDecode ((([Json.obj [("type", Json.str "string")],
        Json.obj [("type", Json.str "byteArray"), ("value", Json.str "bad")]] :
          List Json)).get ⟨1, by decide⟩) =
      Except.ok ((([Json.obj [("type", Json.str "string")],
        Json.obj [("type", Json.str "byteArray"), ("value", Json.str "bad")]] :
          List Json)).get ⟨1, by decide⟩) :=
  ⟨(batch_decode_elementwise (Json.obj [("error", Json.str "boom")]) [] [] 0).1 rfl,
   (batch_decode_elementwise Json.null
      [Json.obj [("type", Json.str "string")],
       Json.obj [("type", Json.str "byteArray"), ("value", Json.str "bad")]]
      [Json.obj [("type", Json.str "string")],
       Json.obj [("type", Json.str "byteArray"), ("value", Json.str "bad")]] 1).2.1 rfl,
   (batch_decode_elementwise Json.null
      [Json.obj [("type", Json.str "string")],
       Json.obj [("type", Json.str "byteArray"), ("value", Json.str "bad")]]
      [Json.obj [("type", Json.str "string")],
       Json.obj [("type", Json.str "byteArray"), ("value", Json.str "bad")]] 1).2.2.1
      rfl (by decide) (by decide)⟩

/-- C10 counterexample: a list whose only element is a mapping —
`{"type": "byteArray"}` with no `value` field — still faults with an
uncaught `KeyError`, so "completes without fault for every list whose
elements are all mappings" is false as stated. -/
theorem batch_decode_all_mappings_faults :
    isObjB (Json.obj [("type", Json.str "byteArray")]) = true ∧
    batchDecode (Json.arr [Json.obj [("type", Json.str "byteArray")]]) =
      Except.error "KeyError: value" :=
  ⟨rfl, rfl⟩

/-- C10 (amended): the batch decode pass looks up `type` on every
element of a list-shaped response unconditionally, so an element that
is not a mapping always faults (`AttributeError`); the pass completes
without fault when every element is a mapping AND every
`byteArray`-tagged mapping also carries a `value` field (otherwise the
`value` lookup raises `KeyError`) — neither precondition is stated in
the spec. -/
theorem batch_decode_totality_amended :
    ∀ (items : List Json) (x : Json),
      ((∀ y ∈ items, isObjB y = true ∧
          (isByteArrayTag (lookupField (fieldsOf y) "type") = true →
            ∃ v, lookupField (fieldsOf y) "value" = some v)) →
        exceptIsOk (batchDecode (Json.arr items)) = true) ∧
      (x ∈ items → isObjB x = false →
        exceptIsOk (batchDecode (Json.arr items)) = false) := by
  intro items x
  constructor
  · intro h
    obtain ⟨out, hout⟩ := decodeList_total items h
    simp [batchDecode, hout, exceptIsOk, Except.map]
  · intro hmem hnotobj
    obtain ⟨e, he⟩ := decodeList_faults items x hmem hnotobj
    simp [batchDecode, he, exceptIsOk, Except.map]

/-- C10 witness: a singleton batch of a well-formed mapping decodes
without fault, while a singleton batch containing a bare string faults. -/
theorem batch_decode_totality_amended_witness :
    exceptIsOk (batchDecode (Json.arr [Json.obj [("type", Json.str "string"),
      ("value", Json.str "ok")]])) = true ∧
    exceptIsOk (batchDecode (Json.arr [Json.str "zzz"])) = false :=
  ⟨(batch_decode_totality_amended
      [Json.obj [("type", Json.str "string"), ("value", Json.str "ok")]] Json.null).1
      (by
        intro y hy
        simp at hy
        subst hy
        exact ⟨rfl, fun hb => by cases hb⟩),
   (batch_decode_totality_amended [Json.str "zzz"] (Json.str "zzz")).2
      (List.mem_cons_self _ _) rfl⟩
